import Mathlib

/-!
Verification development for the mutual-fund SIP analysis repository.

The source consists of three Python files:
  - mutual_fund_fetcher.py : HTTP data retrieval (external collaborator);
    only its truncation behaviour (get_nav_history with a days limit) is
    modelled, since the preparation functions consume it.
  - enhanced_sip.py : NAV trend analysis, opportunity scoring, and the
    current-month strategy helper.
  - backtest_enhanced_sip.py : the SIP simulator, multiplier ladder,
    rolling-return calculator, and strategy comparator.

Modelling conventions:
  - Prices, amounts and percentages are rationals; the Python floats are
    idealised as exact decimal/rational arithmetic.
  - Raw records arrive already parsed into a date and a rational NAV; the
    source's pd.to_datetime / pd.to_numeric raise on malformed input rather
    than filtering it, and no analysed claim concerns malformed records.
  - Python's round(x, n) (banker's rounding) is modelled exactly on
    rationals by roundHalfEven below.
  - pandas sort_values is modelled by Mathlib's insertionSort.  For a
    descending sort, pandas computes an ascending argsort and reverses the
    resulting indexer (pandas.core.sorting.nargsort); numpy's default
    quicksort runs plain (stable) insertion sort on arrays shorter than 16
    elements, so for the short frames used in the concrete inputs below the
    model - stable ascending sort, then reverse - is exact.
  - The 7-day volatility column of analyze_nav_trends is omitted: its value
    is an irrational square root and no simulated or claimed computation
    ever reads it.  The boolean columns is_significant_drop / is_below_ma
    are likewise never read downstream and are omitted.
-/

attribute [local semireducible] Rat.mul Rat.add Rat.sub Rat.inv Rat.ofScientific

/-- A calendar date, as produced by pd.to_datetime on a DD-MM-YYYY string. -/
structure Date where
  year : Int
  month : Nat
  day : Nat
deriving DecidableEq, Repr

/-- Day number of a civil date (days since 1970-01-01), the standard
days-from-civil algorithm with truncating integer division, matching the
day arithmetic of pandas Timestamp subtraction. -/
def daysFromCivil (dt : Date) : Int :=
  let y : Int := if dt.month ≤ 2 then dt.year - 1 else dt.year
  let era : Int := y / 400
  let yoe : Int := y - era * 400
  let mp : Int := ((dt.month : Int) + 9) % 12
  let doy : Int := (153 * mp + 2) / 5 + (dt.day : Int) - 1
  let doe : Int := yoe * 365 + yoe / 4 - yoe / 100 + doy
  era * 146097 + doe - 719468

/-- The floor of a rational, computed directly from its reduced fraction
(the denominator is positive, and integer division on Int is euclidean,
hence flooring). -/
def ratFloor (q : ℚ) : Int := q.num / q.den

/-- Python's round-half-to-even on an exact rational. -/
def roundHalfEven (q : ℚ) : Int :=
  let n := ratFloor q
  let f := q - n
  if f < 1/2 then n
  else if 1/2 < f then n + 1
  else if n % 2 = 0 then n else n + 1

/-- Python's round(x, 2) on an exact rational. -/
def round2 (q : ℚ) : ℚ := (roundHalfEven (q * 100) : ℚ) / 100

/-- Python's round(x, 3) on an exact rational. -/
def round3 (q : ℚ) : ℚ := (roundHalfEven (q * 1000) : ℚ) / 1000

/-- One raw NAV record, already parsed: mutual_fund_fetcher delivers
date/nav string pairs and the preparation functions parse them with
pd.to_datetime and pd.to_numeric. -/
structure RawRecord where
  date : Date
  nav : ℚ
deriving DecidableEq, Repr

/-- get_nav_history truncation: `if days: return history[:days]` - a zero
(falsy) limit returns the whole history. -/
def navHistoryTake (history : List RawRecord) (days : Nat) : List RawRecord :=
  if days = 0 then history else history.take days

/-- Date-order comparison on raw records, the sort key of
df.sort_values('date'). -/
def rawLe (a b : RawRecord) : Prop := daysFromCivil a.date ≤ daysFromCivil b.date

instance : DecidableRel rawLe := fun a b => Int.decLe _ _

instance : IsTotal RawRecord rawLe := ⟨fun a b => Int.le_total _ _⟩

instance : IsTrans RawRecord rawLe := ⟨fun _ _ _ h1 h2 => le_trans h1 h2⟩

/-- One row of a prepared NAV frame: the parsed date and NAV plus the
derived columns nav_change (pct_change * 100, undefined on the first row)
and the trailing 7- and 30-point moving averages (undefined until the
window fills). -/
structure EPoint where
  date : Date
  nav : ℚ
  navChange : Option ℚ
  ma7 : Option ℚ
  ma30 : Option ℚ
deriving DecidableEq, Repr

/-- Enrichment pass over the date-sorted records.  `seen` is the list of
already-processed NAVs, most recent first; nav_change is the
period-over-period percent change and maN the trailing simple average of
the last N NAVs once N are available (pandas rolling(N).mean()). -/
def enrichFrom (seen : List ℚ) : List RawRecord → List EPoint
  | [] => []
  | r :: rs =>
    let navsInclusive := r.nav :: seen
    { date := r.date
      nav := r.nav
      navChange := seen.head?.map fun p => (r.nav / p - 1) * 100
      ma7 := if 7 ≤ navsInclusive.length
             then some ((navsInclusive.take 7).sum / 7) else none
      ma30 := if 30 ≤ navsInclusive.length
              then some ((navsInclusive.take 30).sum / 30) else none }
    :: enrichFrom navsInclusive rs

/-- Shared preparation pipeline of get_historical_data and
analyze_nav_trends: truncate the raw feed to the most recent `days`
records, return empty on an empty feed, sort by date, and derive the
percent-change and moving-average columns. -/
def prepareSeries (history : List RawRecord) (days : Nat) : List EPoint :=
  let h := navHistoryTake history days
  if h = [] then []
  else enrichFrom [] (List.insertionSort rawLe h)

/-- SIPBacktest.get_historical_data: fetch, parse, sort by date, and add
nav_change and the 30-day moving average.  The body is the same
preparation pipeline as analyze_nav_trends (the source duplicates it);
the shared model additionally carries the 7-point average, which this
frame never reads. -/
def get_historical_data (history : List RawRecord) (days : Nat) : List EPoint :=
  prepareSeries history days

/-- EnhancedSIP.analyze_nav_trends: fetch, parse, sort by date, and add
nav_change, the 7- and 30-day moving averages (the 7-day volatility column
is omitted as explained in the file header). -/
def analyze_nav_trends (history : List RawRecord) (days : Nat) : List EPoint :=
  prepareSeries history days

/-- SIPBacktest.calculate_enhanced_multiplier: the contribution multiplier
ladder, checked in order, first match wins. -/
def calculate_enhanced_multiplier (current_nav previous_nav nav_change : ℚ) : ℚ :=
  if nav_change ≤ -3 then 2
  else if nav_change ≤ -2 then 3/2
  else if nav_change ≤ -1 then 5/4
  else if current_nav < previous_nav * (98/100) then 23/20
  else if current_nav > previous_nav * (102/100) then 17/20
  else 1

/-- First-match evaluation of a condition/value ladder with a default. -/
def firstMatch : List (Bool × ℚ) → ℚ → ℚ
  | [], d => d
  | (b, v) :: rest, d => if b then v else firstMatch rest d

/-- Modelled from the spec: the section 4.2 multiplier table as an ordered
ladder of rows, for the refinement comparison with the source function. -/
def specLadderMultiplier (current_nav previous_nav nav_change : ℚ) : ℚ :=
  firstMatch
    [ (decide (nav_change ≤ -3), 2)
    , (decide (nav_change ≤ -2), 3/2)
    , (decide (nav_change ≤ -1), 5/4)
    , (decide (current_nav < previous_nav * (98/100)), 23/20)
    , (decide (current_nav > previous_nav * (102/100)), 17/20) ]
    1

/-- The two simulation strategies of simulate_sip: the source passes the
strings "regular" and "enhanced" and tests strategy == 'enhanced'. -/
inductive Strategy where
  | regular
  | enhanced
deriving DecidableEq, Repr

/-- One entry of the simulator's investments ledger (the dict appended per
month in simulate_sip); total_units and total_invested are the running
accumulators at the time the entry is created, stored unrounded. -/
structure Contribution where
  date : Date
  nav : ℚ
  nav_change : Option ℚ
  amount : ℚ
  units : ℚ
  total_units : ℚ
  total_invested : ℚ
deriving DecidableEq, Repr

/-- The year_month grouping key, df['date'].dt.to_period('M'). -/
def monthKey (d : Date) : Int × Nat := (d.year, d.month)

/-- Ordering of year_month period keys. -/
def keyLe (a b : Int × Nat) : Prop := a.1 < b.1 ∨ (a.1 = b.1 ∧ a.2 ≤ b.2)

instance : DecidableRel keyLe := fun _ _ => instDecidableOr

instance : IsTotal (Int × Nat) keyLe := by
  constructor
  intro a b
  rcases lt_trichotomy a.1 b.1 with h | h | h
  · exact Or.inl (Or.inl h)
  · rcases Nat.le_total a.2 b.2 with h2 | h2
    · exact Or.inl (Or.inr ⟨h, h2⟩)
    · exact Or.inr (Or.inr ⟨h.symm, h2⟩)
  · exact Or.inr (Or.inl h)

instance : IsTrans (Int × Nat) keyLe := by
  constructor
  intro a b c hab hbc
  rcases hab with h1 | ⟨e1, l1⟩
  · rcases hbc with h2 | ⟨e2, _⟩
    · exact Or.inl (h1.trans h2)
    · exact Or.inl (e2 ▸ h1)
  · rcases hbc with h2 | ⟨e2, l2⟩
    · exact Or.inl (e1 ▸ h2)
    · exact Or.inr ⟨e1.trans e2, l1.trans l2⟩

/-- Date-order comparison on prepared rows, the key of the per-month
group.sort_values('date'). -/
def pointDateLe (a b : EPoint) : Prop := daysFromCivil a.date ≤ daysFromCivil b.date

instance : DecidableRel pointDateLe := fun a b => Int.decLe _ _

instance : IsTotal EPoint pointDateLe := ⟨fun a b => Int.le_total _ _⟩

instance : IsTrans EPoint pointDateLe := ⟨fun _ _ _ h1 h2 => le_trans h1 h2⟩

/-- The distinct year_month keys of the frame in ascending order: pandas
groupby iterates the sorted unique group keys. -/
def sortedMonths (df : List EPoint) : List (Int × Nat) :=
  List.insertionSort keyLe ((df.map fun p => monthKey p.date).dedup)

/-- All rows of the frame belonging to one year_month group, in frame
order (pandas groupby preserves the within-group row order). -/
def monthGroup (df : List EPoint) (k : Int × Nat) : List EPoint :=
  df.filter fun p => decide (monthKey p.date = k)

/-- The representative row of one month: month_data = the group sorted by
date, invest_row = its first row (skipped when the group is empty, the
`len(month_data) == 0: continue` branch). -/
def repRow (df : List EPoint) (k : Int × Nat) : Option EPoint :=
  (List.insertionSort pointDateLe (monthGroup df k)).head?

/-- The sequence of invest rows the simulation loop runs over: one
representative per month present in the frame, in month order. -/
def investRows (df : List EPoint) : List EPoint :=
  (sortedMonths df).filterMap (repRow df)

/-- The contribution amount of one invest row: for the enhanced strategy
the previous NAV is reconstructed as nav / (1 + nav_change/100) and fed to
the multiplier ladder (multiplier 1.0 when nav_change is NaN); the regular
strategy always invests the base amount. -/
def amountOf (base : ℚ) (strat : Strategy) (p : EPoint) : ℚ :=
  match strat with
  | .enhanced =>
    match p.navChange with
    | some ch =>
      base * calculate_enhanced_multiplier p.nav (p.nav / (1 + ch/100)) ch
    | none => base * 1
  | .regular => base

/-- One iteration of the simulation loop: compute the amount, the units
purchased (amount / nav), and append the ledger entry carrying the updated
running totals. -/
def contribStep (base : ℚ) (strat : Strategy) (ti tu : ℚ) (p : EPoint) : Contribution :=
  let amount := amountOf base strat p
  let units := amount / p.nav
  { date := p.date
    nav := p.nav
    nav_change := p.navChange
    amount := amount
    units := units
    total_units := tu + units
    total_invested := ti + amount }

/-- The simulation loop over the invest rows, threading the
total_invested and total_units accumulators exactly as the source's
`+=` statements do; returns the final accumulators and the ledger. -/
def sipLoop (base : ℚ) (strat : Strategy) : ℚ → ℚ → List EPoint → ℚ × ℚ × List Contribution
  | ti, tu, [] => (ti, tu, [])
  | ti, tu, p :: ps =>
    let c := contribStep base strat ti tu p
    let rest := sipLoop base strat c.total_invested c.total_units ps
    (rest.1, rest.2.1, c :: rest.2.2)

/-- The CAGR field of a simulation result.  The source computes
round(((final_value / total_invested) ** (1/years) - 1) * 100, 2) when
years > 0 and 0 otherwise, on numpy floats.  The rational model keeps the
guard structure exact and the power symbolic: `zero` is the years <= 0
fallback; `nonfinite` is the years > 0, total_invested = 0 case, where the
float division 0/x-style 0-denominator ratio yields inf or NaN and the
whole expression stays non-finite; `value b e` stands for the finite-ratio
case round((b ** e - 1) * 100, 2) with b = final_value / total_invested
and e = 1/years, an irrational real in general and therefore left
symbolic. -/
inductive CagrOutcome where
  | zero
  | nonfinite
  | value (b e : ℚ)
deriving DecidableEq, Repr

/-- The dict returned by simulate_sip.  The reported aggregate fields are
rounded exactly as in the source; the ledger entries keep the unrounded
values. -/
structure SimResult where
  strategy : Strategy
  total_invested : ℚ
  total_units : ℚ
  final_nav : ℚ
  final_value : ℚ
  absolute_return : ℚ
  return_percent : ℚ
  cagr : CagrOutcome
  num_investments : Nat
  investments : List Contribution
deriving DecidableEq, Repr

/-- The date of df.iloc[0] (default unreachable: callers guard emptiness). -/
def firstDateOf (df : List EPoint) : Date :=
  ((df.head?).map fun p => p.date).getD ⟨0, 1, 1⟩

/-- The date of df.iloc[-1] (default unreachable: callers guard emptiness). -/
def lastDateOf (df : List EPoint) : Date :=
  ((df.getLast?).map fun p => p.date).getD ⟨0, 1, 1⟩

/-- The NAV of df.iloc[-1] (default unreachable: callers guard emptiness). -/
def lastNavOf (df : List EPoint) : ℚ :=
  ((df.getLast?).map fun p => p.nav).getD 0

/-- The elapsed-year fraction (df.iloc[-1]['date'] - df.iloc[0]['date'])
.days / 365.25. -/
def simYears (df : List EPoint) : ℚ :=
  ((daysFromCivil (lastDateOf df) - daysFromCivil (firstDateOf df) : Int) : ℚ) / (1461/4)

/-- The body of simulate_sip on a (nonempty) prepared frame: run the
monthly loop, then derive the summary metrics with the division guards of
the source. -/
def simCore (df : List EPoint) (base : ℚ) (strat : Strategy) : SimResult :=
  let res := sipLoop base strat 0 0 (investRows df)
  let ti := res.1
  let tu := res.2.1
  let inv := res.2.2
  let finalNav := lastNavOf df
  let finalValue := tu * finalNav
  let absReturn := finalValue - ti
  let retPercent := if 0 < ti then absReturn / ti * 100 else 0
  let years := simYears df
  { strategy := strat
    total_invested := round2 ti
    total_units := round3 tu
    final_nav := round2 finalNav
    final_value := round2 finalValue
    absolute_return := round2 absReturn
    return_percent := round2 retPercent
    cagr := if 0 < years then
              (if ti = 0 then CagrOutcome.nonfinite
               else CagrOutcome.value (finalValue / ti) (1 / years))
            else CagrOutcome.zero
    num_investments := inv.length
    investments := inv }

/-- SIPBacktest.simulate_sip.  On an empty frame the source's loop makes
no investments and the subsequent df.iloc[-1] raises IndexError; the model
returns none for that fault. -/
def simulate_sip (df : List EPoint) (base : ℚ) (strat : Strategy) : Option SimResult :=
  if df = [] then none else some (simCore df base strat)

/-- pandas iloc with an integer position: a negative position counts from
the end (length + i); a position outside the frame raises IndexError,
modelled as none. -/
def ilocZ {α : Type} (xs : List α) (i : Int) : Option α :=
  if 0 ≤ i then xs.get? i.toNat
  else
    let j := (xs.length : Int) + i
    if 0 ≤ j then xs.get? j.toNat else none

/-- One row of the rolling-returns frame built by
calculate_rolling_returns. -/
structure RollingPoint where
  date : Date
  invested : ℚ
  value : ℚ
  return_percent : ℚ
deriving DecidableEq, Repr

/-- A placeholder ledger entry, unreachable: rollingRow only reads
positions that exist for the indices the calculator produces. -/
def defaultContribution : Contribution :=
  { date := ⟨0, 1, 1⟩, nav := 0, nav_change := none
    amount := 0, units := 0, total_units := 0, total_invested := 0 }

/-- The row the rolling calculator appends for one index i: invested and
units are summed over the ledger slice [i - w, i), the current NAV and the
row date are read from position i - 1 (Python indexing, so i = 0 with
w = 0 reads the last entry), and the window return carries the
invested > 0 division guard. -/
def rollingRow (inv : List Contribution) (w i : Nat) : RollingPoint :=
  let window := (inv.drop (i - w)).take (i - (i - w))
  let invested := (window.map fun c => c.amount).sum
  let units := (window.map fun c => c.units).sum
  let anchor := (ilocZ inv ((i : Int) - 1)).getD defaultContribution
  let value := units * anchor.nav
  { date := anchor.date
    invested := invested
    value := value
    return_percent := if 0 < invested then (value - invested) / invested * 100 else 0 }

/-- SIPBacktest.calculate_rolling_returns: one row per index i with
window_months <= i < len(investments).  The source also receives the full
NAV frame as a parameter but never reads it; the unused parameter is kept
for fidelity. -/
def calculate_rolling_returns (inv : List Contribution) (_df : List EPoint)
    (window_months : Nat) : List RollingPoint :=
  (List.range' window_months (inv.length - window_months)).map (rollingRow inv window_months)

/-- The dict returned by compare_strategies on a nonempty frame. -/
structure ComparisonResult where
  regular : SimResult
  enhanced : SimResult
  regular_rolling : List RollingPoint
  enhanced_rolling : List RollingPoint
  outperformance : ℚ
  outperformance_pct : ℚ
deriving DecidableEq, Repr

/-- SIPBacktest.compare_strategies: prepare the series, return the empty
dict (none) when it is empty without attempting any simulation, otherwise
simulate both strategies, compute both rolling-return frames with a
12-month window, and take the outperformance deltas from the (rounded)
reported fields of the two results. -/
def compare_strategies (history : List RawRecord) (base : ℚ) (days : Nat) :
    Option ComparisonResult :=
  let df := get_historical_data history days
  if df = [] then none
  else
    let regularRes := simCore df base .regular
    let enhancedRes := simCore df base .enhanced
    some
      { regular := regularRes
        enhanced := enhancedRes
        regular_rolling := calculate_rolling_returns regularRes.investments df 12
        enhanced_rolling := calculate_rolling_returns enhancedRes.investments df 12
        outperformance := enhancedRes.absolute_return - regularRes.absolute_return
        outperformance_pct := enhancedRes.return_percent - regularRes.return_percent }

/-- The opportunity filter of find_best_investment_dates:
df[df['nav_change'] <= drop_threshold] - a NaN nav_change (the first row)
compares false and is excluded. -/
def oppFilter (df : List EPoint) (threshold : ℚ) : List EPoint :=
  df.filter fun p =>
    match p.navChange with
    | some c => decide (c ≤ threshold)
    | none => false

/-- The opportunity_score column: abs(nav_change), with 0 standing for the
NaN case that the filter has already excluded. -/
def oppScore (p : EPoint) : ℚ :=
  match p.navChange with
  | some c => |c|
  | none => 0

/-- Ascending comparison on the opportunity_score column. -/
def scoreLe (a b : EPoint) : Prop := oppScore a ≤ oppScore b

instance : DecidableRel scoreLe := fun a b => Rat.instDecidableLe (oppScore a) (oppScore b)

instance : IsTotal EPoint scoreLe := ⟨fun a b => le_total _ _⟩

instance : IsTrans EPoint scoreLe := ⟨fun _ _ _ h1 h2 => le_trans h1 h2⟩

/-- The sorted opportunity frame:
opportunities.sort_values('opportunity_score', ascending=False).  pandas
computes an ascending argsort and reverses the indexer; for the short
frames evaluated concretely below the ascending argsort (numpy insertion
sort) is stable, so the model is the stable ascending sort reversed. -/
def oppSorted (df : List EPoint) (threshold : ℚ) : List EPoint :=
  (List.insertionSort scoreLe (oppFilter df threshold)).reverse

/-- EnhancedSIP._get_recommendation. -/
def getRecommendation (score : ℚ) : String :=
  if 3 ≤ score then "Excellent - Invest 150-200% of regular SIP"
  else if 2 ≤ score then "Very Good - Invest 125-150% of regular SIP"
  else if 3/2 ≤ score then "Good - Invest 110-125% of regular SIP"
  else "Moderate - Invest regular SIP amount"

/-- One result row of find_best_investment_dates.  The source formats the
date back to a string; the model keeps the date value.  The score field is
rounded for reporting while the recommendation is computed from the
unrounded column, as in the source. -/
structure OppRow where
  date : Date
  nav : ℚ
  nav_change_percent : ℚ
  nav_30day_avg : Option ℚ
  opportunity_score : ℚ
  recommendation : String
deriving DecidableEq, Repr

/-- The dict built for one opportunity row. -/
def mkOppRow (p : EPoint) : OppRow :=
  { date := p.date
    nav := round2 p.nav
    nav_change_percent := round2 (p.navChange.getD 0)
    nav_30day_avg := p.ma30.map round2
    opportunity_score := round2 (oppScore p)
    recommendation := getRecommendation (oppScore p) }

/-- EnhancedSIP.find_best_investment_dates: analyse the series, return
empty on an empty frame, keep the rows at or below the drop threshold,
sort them by descending opportunity score, and emit one result dict per
row. -/
def find_best_investment_dates (history : List RawRecord) (threshold : ℚ)
    (days : Nat) : List OppRow :=
  let df := analyze_nav_trends history days
  if df = [] then []
  else (oppSorted df threshold).map mkOppRow

/-- EnhancedSIP._get_strategy_message. -/
def getStrategyMessage (m : ℚ) : String :=
  if 3/2 ≤ m then "Market is down significantly - Great buying opportunity!"
  else if 5/4 ≤ m then "Market correction - Good time to invest more"
  else if m ≤ 17/20 then "Market is high - Reduce investment amount"
  else "Market is stable - Continue regular SIP"

/-- The dict returned by get_monthly_investment_strategy on success (the
scheme_code passthrough field is omitted: the model takes the fetched
history directly). -/
structure MonthlyStrategy where
  current_nav : ℚ
  previous_nav : ℚ
  average_nav_30d : ℚ
  recent_change_percent : Option ℚ
  base_sip_amount : ℚ
  recommended_amount : ℚ
  multiplier : ℚ
  units_to_buy : ℚ
  strategy : String
deriving DecidableEq, Repr

/-- The observable outcome of get_monthly_investment_strategy: the empty
dict returned for an empty frame, an uncaught IndexError from an
out-of-bounds iloc access, or the result dict. -/
inductive MonthlyOutcome where
  | emptyDict
  | indexError
  | ok (s : MonthlyStrategy)
deriving DecidableEq, Repr

/-- EnhancedSIP.get_monthly_investment_strategy: analyse 30 days of
history, return the empty dict when the frame is empty, then read the
latest (iloc[-1]) and previous (iloc[-2]) rows - the second read raises
IndexError on a single-row frame - and build the recommendation from the
two NAVs. -/
def get_monthly_investment_strategy (history : List RawRecord) (base : ℚ) :
    MonthlyOutcome :=
  let df := analyze_nav_trends history 30
  if df = [] then MonthlyOutcome.emptyDict
  else
    match ilocZ df (-1), ilocZ df (-2) with
    | some latest, some previous =>
      let avgNav := (df.map fun p => p.nav).sum / (df.length : ℚ)
      let currentNav := latest.nav
      let previousNav := previous.nav
      let m : ℚ :=
        if currentNav < previousNav * (95/100) then 3/2
        else if currentNav < previousNav * (98/100) then 5/4
        else if currentNav > previousNav * (102/100) then 17/20
        else 1
      let recommended := base * m
      MonthlyOutcome.ok
        { current_nav := round2 currentNav
          previous_nav := round2 previousNav
          average_nav_30d := round2 avgNav
          recent_change_percent := latest.navChange.map round2
          base_sip_amount := base
          recommended_amount := round2 recommended
          multiplier := round2 m
          units_to_buy := round3 (recommended / currentNav)
          strategy := getStrategyMessage m }
    | _, _ => MonthlyOutcome.indexError

/-- The three-point scenario series of the spec: (Jan 1, 100),
(Feb 1, 97), (Mar 1, 103). -/
def scenarioSeries : List RawRecord :=
  [ ⟨⟨2020, 1, 1⟩, 100⟩, ⟨⟨2020, 2, 1⟩, 97⟩, ⟨⟨2020, 3, 1⟩, 103⟩ ]

/-- The prepared scenario frame. -/
def scenarioFrame : List EPoint := get_historical_data scenarioSeries 1000

/-- A raw feed whose single NAV of 3 makes the units sum a non-terminating
decimal, separating the rounded report fields from the exact sums. -/
def thirdFeed : List RawRecord := [ ⟨⟨2020, 1, 1⟩, 3⟩ ]

/-- A two-day feed: one calendar month, a positive elapsed-day span. -/
def twoDayFeed : List RawRecord :=
  [ ⟨⟨2020, 1, 1⟩, 100⟩, ⟨⟨2020, 1, 2⟩, 100⟩ ]

/-- A feed with two equal-magnitude drops (both exactly -400/97 percent)
on different dates, and an intervening rise that the filter excludes. -/
def tieFeed : List RawRecord :=
  [ ⟨⟨2020, 1, 1⟩, 97⟩, ⟨⟨2020, 1, 2⟩, 93⟩
  , ⟨⟨2020, 1, 3⟩, 9700⟩, ⟨⟨2020, 1, 4⟩, 9300⟩ ]

/-- A raw feed repeating the same record twice: a duplicate-date input. -/
def dupFeed : List RawRecord :=
  [ ⟨⟨2020, 1, 1⟩, 100⟩, ⟨⟨2020, 1, 1⟩, 100⟩ ]

/-- A single-record feed. -/
def oneFeed : List RawRecord := [ ⟨⟨2020, 1, 1⟩, 100⟩ ]

/-- A fifteen-entry ledger for exercising the 12-month rolling window. -/
def ledger15 : List Contribution :=
  (List.range 15).map fun k =>
    { date := ⟨2020, 1, k + 1⟩, nav := 1, nav_change := none
      amount := 1, units := 1
      total_units := (k : ℚ) + 1, total_invested := (k : ℚ) + 1 }

/-- The first ledger entry the simulation produces on the scenario series
with a base amount of 1000 (no prior point, multiplier 1). -/
def scenarioFirstEntry : Contribution :=
  { date := ⟨2020, 1, 1⟩, nav := 100, nav_change := none
    amount := 1000, units := 10, total_units := 10, total_invested := 1000 }

/-- The single ledger entry the simulation produces on thirdFeed with a
base amount of 1000. -/
def thirdFeedEntry : Contribution :=
  { date := ⟨2020, 1, 1⟩, nav := 3, nav_change := none
    amount := 1000, units := 1000/3, total_units := 1000/3, total_invested := 1000 }

/-! Helper lemmas. -/

theorem round2_zero : round2 0 = 0 := by decide

theorem enrichFrom_map_date (seen : List ℚ) (l : List RawRecord) :
    (enrichFrom seen l).map (fun p => p.date) = l.map (fun r => r.date) := by
  induction l generalizing seen with
  | nil => rfl
  | cons r rs ih => simp [enrichFrom, ih]

theorem prepareSeries_map_days (history : List RawRecord) (days : Nat) :
    (prepareSeries history days).map (fun p => daysFromCivil p.date)
      = (List.insertionSort rawLe (navHistoryTake history days)).map
          (fun r => daysFromCivil r.date) := by
  unfold prepareSeries
  by_cases h : navHistoryTake history days = []
  · simp [h]
  · rw [if_neg h]
    rw [show (fun p : EPoint => daysFromCivil p.date)
          = (daysFromCivil ∘ fun p : EPoint => p.date) from rfl]
    rw [show (fun r : RawRecord => daysFromCivil r.date)
          = (daysFromCivil ∘ fun r : RawRecord => r.date) from rfl]
    rw [← List.map_map, ← List.map_map, enrichFrom_map_date]

theorem navHistoryTake_sublist (history : List RawRecord) (days : Nat) :
    (navHistoryTake history days).Sublist history := by
  unfold navHistoryTake
  by_cases h : days = 0
  · simp [h]
  · rw [if_neg h]; exact List.take_sublist _ _

theorem sipLoop_spec (base : ℚ) (strat : Strategy) (rows : List EPoint) :
    ∀ ti tu : ℚ,
      (sipLoop base strat ti tu rows).1
        = ti + (((sipLoop base strat ti tu rows).2.2).map fun c => c.amount).sum
      ∧ (sipLoop base strat ti tu rows).2.1
        = tu + (((sipLoop base strat ti tu rows).2.2).map fun c => c.units).sum
      ∧ ∀ c, ((sipLoop base strat ti tu rows).2.2).getLast? = some c →
          c.total_invested = (sipLoop base strat ti tu rows).1
          ∧ c.total_units = (sipLoop base strat ti tu rows).2.1 := by
  induction rows with
  | nil =>
    intro ti tu
    refine ⟨by simp [sipLoop], by simp [sipLoop], ?_⟩
    intro c hc
    simp [sipLoop] at hc
  | cons p ps ih =>
    intro ti tu
    obtain ⟨ih1, ih2, ih3⟩ :=
      ih (contribStep base strat ti tu p).total_invested
        (contribStep base strat ti tu p).total_units
    refine ⟨?_, ?_, ?_⟩
    · show (sipLoop base strat _ _ ps).1
        = ti + ((contribStep base strat ti tu p
            :: (sipLoop base strat _ _ ps).2.2).map fun c => c.amount).sum
      rw [ih1, List.map_cons, List.sum_cons]
      show (contribStep base strat ti tu p).total_invested + _ = _
      unfold contribStep
      ring
    · show (sipLoop base strat _ _ ps).2.1
        = tu + ((contribStep base strat ti tu p
            :: (sipLoop base strat _ _ ps).2.2).map fun c => c.units).sum
      rw [ih2, List.map_cons, List.sum_cons]
      show (contribStep base strat ti tu p).total_units + _ = _
      unfold contribStep
      ring
    · intro c hc
      rcases hrest : (sipLoop base strat (contribStep base strat ti tu p).total_invested
          (contribStep base strat ti tu p).total_units ps).2.2 with _ | ⟨q, qs⟩
      · have hc2 : c = contribStep base strat ti tu p := by
          have : (contribStep base strat ti tu p
              :: (sipLoop base strat _ _ ps).2.2).getLast? = some c := hc
          rw [hrest] at this
          simpa using this.symm
        constructor
        · rw [hc2]
          show (contribStep base strat ti tu p).total_invested
              = (sipLoop base strat (contribStep base strat ti tu p).total_invested
                  (contribStep base strat ti tu p).total_units ps).1
          rw [ih1, hrest]
          simp
        · rw [hc2]
          show (contribStep base strat ti tu p).total_units
              = (sipLoop base strat (contribStep base strat ti tu p).total_invested
                  (contribStep base strat ti tu p).total_units ps).2.1
          rw [ih2, hrest]
          simp
      · have hc2 : ((sipLoop base strat (contribStep base strat ti tu p).total_invested
            (contribStep base strat ti tu p).total_units ps).2.2).getLast? = some c := by
          have hcons : (contribStep base strat ti tu p
              :: (sipLoop base strat _ _ ps).2.2).getLast? = some c := hc
          rw [hrest] at hcons
          rw [hrest]
          rw [List.getLast?_cons_cons] at hcons
          exact hcons
        exact ih3 c hc2

theorem mem_sipLoop (base : ℚ) (strat : Strategy) (rows : List EPoint) :
    ∀ (ti tu : ℚ) (c : Contribution), c ∈ (sipLoop base strat ti tu rows).2.2 →
      ∃ p ∈ rows, ∃ ti2 tu2 : ℚ, c = contribStep base strat ti2 tu2 p := by
  induction rows with
  | nil =>
    intro ti tu c hc
    simp [sipLoop] at hc
  | cons p ps ih =>
    intro ti tu c hc
    have hc2 : c = contribStep base strat ti tu p
        ∨ c ∈ (sipLoop base strat (contribStep base strat ti tu p).total_invested
            (contribStep base strat ti tu p).total_units ps).2.2 := by
      have : c ∈ contribStep base strat ti tu p
          :: (sipLoop base strat (contribStep base strat ti tu p).total_invested
              (contribStep base strat ti tu p).total_units ps).2.2 := hc
      exact List.mem_cons.mp this
    rcases hc2 with h | h
    · exact ⟨p, List.mem_cons_self p ps, ti, tu, h⟩
    · obtain ⟨q, hq, ti2, tu2, he⟩ := ih _ _ c h
      exact ⟨q, List.mem_cons_of_mem p hq, ti2, tu2, he⟩

theorem mem_sortedMonths_iff (df : List EPoint) (k : Int × Nat) :
    k ∈ sortedMonths df ↔ ∃ p ∈ df, monthKey p.date = k := by
  unfold sortedMonths
  rw [(List.perm_insertionSort keyLe _).mem_iff, List.mem_dedup, List.mem_map]

theorem mem_monthGroup (df : List EPoint) (k : Int × Nat) (p : EPoint) :
    p ∈ monthGroup df k ↔ p ∈ df ∧ monthKey p.date = k := by
  unfold monthGroup
  rw [List.mem_filter]
  simp

theorem repRow_spec (df : List EPoint) (k : Int × Nat) (hne : monthGroup df k ≠ []) :
    ∃ p, repRow df k = some p ∧ p ∈ monthGroup df k
      ∧ ∀ q ∈ monthGroup df k, daysFromCivil p.date ≤ daysFromCivil q.date := by
  have hperm := List.perm_insertionSort pointDateLe (monthGroup df k)
  have hsne : List.insertionSort pointDateLe (monthGroup df k) ≠ [] := by
    intro h0
    apply hne
    rw [h0] at hperm
    exact hperm.symm.eq_nil
  obtain ⟨p, ps, hps⟩ := List.exists_cons_of_ne_nil hsne
  have hsorted := List.sorted_insertionSort pointDateLe (monthGroup df k)
  rw [hps] at hsorted
  refine ⟨p, ?_, ?_, ?_⟩
  · unfold repRow
    rw [hps]
    rfl
  · apply hperm.subset
    rw [hps]
    exact List.mem_cons_self p ps
  · intro q hq
    have hq2 : q ∈ p :: ps := by
      rw [← hps]
      exact hperm.mem_iff.mpr hq
    rcases List.mem_cons.mp hq2 with he | hm
    · rw [he]
    · exact List.rel_of_sorted_cons hsorted q hm

theorem sipLoop_map_keys (base : ℚ) (strat : Strategy) (rows : List EPoint) :
    ∀ ti tu : ℚ,
      ((sipLoop base strat ti tu rows).2.2).map (fun c => monthKey c.date)
        = rows.map fun p => monthKey p.date := by
  induction rows with
  | nil => intro ti tu; rfl
  | cons p ps ih =>
    intro ti tu
    show monthKey p.date
        :: ((sipLoop base strat _ _ ps).2.2).map (fun c => monthKey c.date)
      = monthKey p.date :: ps.map fun q => monthKey q.date
    rw [ih]

theorem repRow_some_of_mem (df : List EPoint) (k : Int × Nat)
    (hk : k ∈ sortedMonths df) :
    ∃ p, repRow df k = some p ∧ monthKey p.date = k := by
  obtain ⟨p0, hp0, hk0⟩ := (mem_sortedMonths_iff df k).mp hk
  have hgne : monthGroup df k ≠ [] := by
    intro h0
    have hpm : p0 ∈ monthGroup df k := (mem_monthGroup df k p0).mpr ⟨hp0, hk0⟩
    rw [h0] at hpm
    exact absurd hpm (List.not_mem_nil p0)
  obtain ⟨p, hrep, hpg, _⟩ := repRow_spec df k hgne
  exact ⟨p, hrep, ((mem_monthGroup df k p).mp hpg).2⟩

theorem investRows_map_keys (df : List EPoint) :
    (investRows df).map (fun p => monthKey p.date) = sortedMonths df := by
  unfold investRows
  have hk : ∀ k ∈ sortedMonths df, ∃ p, repRow df k = some p ∧ monthKey p.date = k :=
    fun k hkm => repRow_some_of_mem df k hkm
  generalize sortedMonths df = ks at hk ⊢
  induction ks with
  | nil => rfl
  | cons k ks ih =>
    obtain ⟨p, hrep, hkey⟩ := hk k (List.mem_cons_self k ks)
    rw [List.filterMap_cons, hrep, List.map_cons, hkey,
      ih fun k2 hk2 => hk k2 (List.mem_cons_of_mem k hk2)]

theorem mem_investRows (df : List EPoint) (p : EPoint) (hp : p ∈ investRows df) :
    p ∈ df
    ∧ ∀ q ∈ df, monthKey q.date = monthKey p.date →
        daysFromCivil p.date ≤ daysFromCivil q.date := by
  unfold investRows at hp
  obtain ⟨k, hk, hrep⟩ := List.mem_filterMap.mp hp
  have hgne : monthGroup df k ≠ [] := by
    intro h0
    unfold repRow at hrep
    rw [h0] at hrep
    simp [List.insertionSort] at hrep
  obtain ⟨p2, hrep2, hpg, hmin⟩ := repRow_spec df k hgne
  have hpe : p2 = p := by
    rw [hrep] at hrep2
    exact (Option.some_injective _ hrep2).symm
  rw [hpe] at hpg hmin
  have hkp : monthKey p.date = k := ((mem_monthGroup df k p).mp hpg).2
  refine ⟨((mem_monthGroup df k p).mp hpg).1, ?_⟩
  intro q hq hqk
  exact hmin q ((mem_monthGroup df k q).mpr ⟨hq, hqk.trans hkp⟩)

/-! Claim theorems. -/

/-- C1: calculate_enhanced_multiplier returns the first matching row of
the ladder - 2.0 if percentChange <= -3.0, else 1.5 if <= -2.0, else 1.25
if <= -1.0, else 1.15 if price < 0.98 * previousPrice, else 0.85 if
price > 1.02 * previousPrice, else 1.0 - so a percentChange of -3.5
yields 2.0 regardless of the price-ratio arguments. -/
theorem c1_multiplier_ladder (current_nav previous_nav nav_change : ℚ) :
    calculate_enhanced_multiplier current_nav previous_nav nav_change
      = specLadderMultiplier current_nav previous_nav nav_change
    ∧ calculate_enhanced_multiplier current_nav previous_nav (-(7/2)) = 2 := by
  constructor
  · simp only [calculate_enhanced_multiplier, specLadderMultiplier, firstMatch,
      decide_eq_true_eq]
  · unfold calculate_enhanced_multiplier
    rw [if_pos (by norm_num)]

/-- C4 (amended): the prepared series is sorted ascending by date, but the
preparation only sorts - it never de-duplicates - so strict ascent and
absence of duplicate dates hold exactly when the raw records' dates are
pairwise distinct. -/
theorem c4_prepared_sorted_amended (history : List RawRecord) (days : Nat) :
    List.Pairwise (fun a b : EPoint => daysFromCivil a.date ≤ daysFromCivil b.date)
      (get_historical_data history days)
    ∧ ((history.map fun r => daysFromCivil r.date).Nodup →
        List.Pairwise (fun a b : EPoint => daysFromCivil a.date < daysFromCivil b.date)
          (get_historical_data history days))
    ∧ analyze_nav_trends history days = get_historical_data history days := by
  have hdays : (prepareSeries history days).map (fun p => daysFromCivil p.date)
      = (List.insertionSort rawLe (navHistoryTake history days)).map
          (fun r => daysFromCivil r.date) := prepareSeries_map_days history days
  have hsorted : List.Pairwise rawLe
      (List.insertionSort rawLe (navHistoryTake history days)) :=
    List.sorted_insertionSort rawLe (navHistoryTake history days)
  have hle : List.Pairwise (fun a b : EPoint => daysFromCivil a.date ≤ daysFromCivil b.date)
      (get_historical_data history days) := by
    have h1 : List.Pairwise (fun a b : Int => a ≤ b)
        ((List.insertionSort rawLe (navHistoryTake history days)).map
          (fun r => daysFromCivil r.date)) :=
      List.pairwise_map.mpr hsorted
    rw [← hdays] at h1
    exact List.pairwise_map.mp h1
  refine ⟨hle, ?_, rfl⟩
  intro hnodup
  have hnd : ((prepareSeries history days).map fun p => daysFromCivil p.date).Nodup := by
    rw [hdays]
    have hperm := (List.perm_insertionSort rawLe (navHistoryTake history days)).map
      (fun r => daysFromCivil r.date)
    have hsub := (navHistoryTake_sublist history days).map
      (fun r => daysFromCivil r.date)
    exact hperm.nodup_iff.mpr (hnodup.sublist hsub)
  have hne : List.Pairwise (fun a b : EPoint => daysFromCivil a.date ≠ daysFromCivil b.date)
      (get_historical_data history days) :=
    List.pairwise_map.mp hnd
  exact (hle.and hne).imp fun hab => lt_of_le_of_ne hab.1 hab.2

/-- C4 witness: on the three-point scenario feed, whose dates are
pairwise distinct, the prepared frame is strictly ascending by date. -/
theorem c4_prepared_sorted_witness :
    ((scenarioSeries.map fun r => daysFromCivil r.date).Nodup)
    ∧ List.Pairwise (fun a b : EPoint => daysFromCivil a.date < daysFromCivil b.date)
        (get_historical_data scenarioSeries 1000) :=
  ⟨by decide, (c4_prepared_sorted_amended scenarioSeries 1000).2.1 (by decide)⟩

/-- C4 counterexample: a raw feed repeating one record keeps both copies -
the prepared series has a duplicate date and is not strictly ascending,
refuting the de-duplication part of the claim. -/
theorem c4_duplicate_dates_counterexample :
    ((analyze_nav_trends dupFeed 1000).map fun p => p.date)
      = [⟨2020, 1, 1⟩, ⟨2020, 1, 1⟩]
    ∧ ¬ ((analyze_nav_trends dupFeed 1000).map fun p => p.date).Nodup := by
  constructor
  · decide
  · decide

/-- C7 (amended): returnPercent is 0 whenever the exact totalInvested is
at most 0, and CAGR is 0 whenever the elapsed-year fraction is at most 0;
but the ratio finalValue/totalInvested inside the CAGR formula carries no
guard of its own - with positive elapsed years and totalInvested = 0 the
source divides by zero on floats and the CAGR stays non-finite instead of
falling back to 0. -/
theorem c7_division_guards_amended (df : List EPoint) (base : ℚ) (strat : Strategy) :
    ((sipLoop base strat 0 0 (investRows df)).1 ≤ 0 →
      (simCore df base strat).return_percent = 0)
    ∧ (simYears df ≤ 0 → (simCore df base strat).cagr = CagrOutcome.zero)
    ∧ (0 < simYears df → (sipLoop base strat 0 0 (investRows df)).1 = 0 →
        (simCore df base strat).cagr = CagrOutcome.nonfinite) := by
  refine ⟨?_, ?_, ?_⟩
  · intro h
    show round2 (if 0 < (sipLoop base strat 0 0 (investRows df)).1 then _ else 0) = 0
    rw [if_neg (not_lt.mpr h), round2_zero]
  · intro h
    show (if 0 < simYears df then _ else CagrOutcome.zero) = CagrOutcome.zero
    rw [if_neg (not_lt.mpr h)]
  · intro hy ht
    show (if 0 < simYears df then
            (if (sipLoop base strat 0 0 (investRows df)).1 = 0 then CagrOutcome.nonfinite
             else _)
          else CagrOutcome.zero) = CagrOutcome.nonfinite
    rw [if_pos hy, if_pos ht]

/-- C7 witness: a one-point frame has zero elapsed years, and its CAGR is
the fallback 0. -/
theorem c7_division_guards_witness :
    simYears (get_historical_data oneFeed 30) ≤ 0
    ∧ (simCore (get_historical_data oneFeed 30) 10000 .regular).cagr = CagrOutcome.zero :=
  ⟨by decide,
   (c7_division_guards_amended (get_historical_data oneFeed 30) 10000 .regular).2.1
     (by decide)⟩

/-- C7 counterexample: over a two-day feed with base amount 0, the total
invested is 0 while the elapsed-year fraction is positive, and the CAGR is
the propagated non-finite float value, not the defined fallback 0 the
claim requires of every zero-denominator ratio. -/
theorem c7_cagr_unguarded_counterexample :
    (simCore (get_historical_data twoDayFeed 1000) 0 .regular).total_invested = 0
    ∧ 0 < simYears (get_historical_data twoDayFeed 1000)
    ∧ (simCore (get_historical_data twoDayFeed 1000) 0 .regular).cagr = CagrOutcome.nonfinite
    ∧ CagrOutcome.nonfinite ≠ CagrOutcome.zero := by
  refine ⟨by decide, by decide, by decide, by decide⟩

/-- C8 (amended): the opportunity set consists of exactly the analysed
points whose percent change is at or below the (negative) threshold; each
reported row carries the drop magnitude rounded to two decimals as its
score (the ordering is computed on the unrounded magnitude); rows are
ordered by descending score; but tie-break is not ascending-date-stable -
the pandas descending sort is the reverse of an ascending argsort, which
for the frames modelled here puts equal scores in descending date
order. -/
theorem c8_opportunities_amended (history : List RawRecord) (t : ℚ) (days : Nat)
    (ht : t < 0) :
    List.Perm (find_best_investment_dates history t days)
      ((oppFilter (analyze_nav_trends history days) t).map mkOppRow)
    ∧ (∀ p, p ∈ oppFilter (analyze_nav_trends history days) t ↔
        p ∈ analyze_nav_trends history days
          ∧ ∃ c, p.navChange = some c ∧ c ≤ t)
    ∧ (∀ p ∈ oppFilter (analyze_nav_trends history days) t,
        ∃ c, p.navChange = some c ∧ c ≤ t ∧ oppScore p = -c
          ∧ (mkOppRow p).opportunity_score = round2 (-c))
    ∧ List.Pairwise (fun a b => oppScore b ≤ oppScore a)
        (oppSorted (analyze_nav_trends history days) t)
    ∧ find_best_investment_dates history t days
        = (oppSorted (analyze_nav_trends history days) t).map mkOppRow := by
  have hmem : ∀ p, p ∈ oppFilter (analyze_nav_trends history days) t ↔
      p ∈ analyze_nav_trends history days ∧ ∃ c, p.navChange = some c ∧ c ≤ t := by
    intro p
    unfold oppFilter
    rw [List.mem_filter]
    constructor
    · rintro ⟨hpdf, hpred⟩
      refine ⟨hpdf, ?_⟩
      rcases hnc : p.navChange with _ | c
      · rw [hnc] at hpred
        simp at hpred
      · rw [hnc] at hpred
        exact ⟨c, rfl, of_decide_eq_true hpred⟩
    · rintro ⟨hpdf, c, hnc, hct⟩
      refine ⟨hpdf, ?_⟩
      rw [hnc]
      exact decide_eq_true hct
  have heq : find_best_investment_dates history t days
      = (oppSorted (analyze_nav_trends history days) t).map mkOppRow := by
    unfold find_best_investment_dates
    by_cases hdf : analyze_nav_trends history days = []
    · rw [if_pos hdf, hdf]
      rfl
    · rw [if_neg hdf]
  refine ⟨?_, hmem, ?_, ?_, heq⟩
  · rw [heq]
    exact ((List.reverse_perm _).trans
      (List.perm_insertionSort scoreLe _)).map mkOppRow
  · intro p hp
    obtain ⟨_, c, hnc, hct⟩ := (hmem p).mp hp
    have hscore : oppScore p = -c := by
      unfold oppScore
      rw [hnc]
      exact abs_of_nonpos (le_of_lt (lt_of_le_of_lt hct ht))
    refine ⟨c, hnc, hct, hscore, ?_⟩
    show round2 (oppScore p) = round2 (-c)
    rw [hscore]
  · unfold oppSorted
    exact List.pairwise_reverse.mpr (List.sorted_insertionSort scoreLe _)

/-- C8 witness: with threshold -2 on the tie feed, the reported rows are a
permutation of the filtered opportunity rows. -/
theorem c8_opportunities_witness :
    ((-2 : ℚ) < 0)
    ∧ List.Perm (find_best_investment_dates tieFeed (-2) 600)
        ((oppFilter (analyze_nav_trends tieFeed 600) (-2)).map mkOppRow) :=
  ⟨by norm_num, (c8_opportunities_amended tieFeed (-2) 600 (by norm_num)).1⟩

/-- C8 counterexample: on the tie feed both drops have exact magnitude
400/97; the reported scores are the rounded 4.12, not the magnitude, and
the two tied rows come out in descending date order (Jan 4 before Jan 2),
not the ascending, stable order the claim states. -/
theorem c8_tie_order_counterexample :
    ((find_best_investment_dates tieFeed (-2) 600).map fun r => r.opportunity_score)
      = [103/25, 103/25]
    ∧ ((find_best_investment_dates tieFeed (-2) 600).map fun r => r.date)
      = [⟨2020, 1, 4⟩, ⟨2020, 1, 2⟩]
    ∧ daysFromCivil ⟨2020, 1, 2⟩ < daysFromCivil ⟨2020, 1, 4⟩
    ∧ ((103 : ℚ)/25) ≠ 400/97
    ∧ ((oppFilter (analyze_nav_trends tieFeed 600) (-2)).map oppScore)
      = [400/97, 400/97] := by
  refine ⟨by decide, by decide, by decide, by decide, by decide⟩

/-- C10: the current-month strategy needs two rows - an empty frame
returns the empty dict, a one-row frame dies on the iloc[-2] access, and
a result is produced exactly when the analysed frame has at least two
rows. -/
theorem c10_monthly_strategy_arity (history : List RawRecord) (base : ℚ) :
    (analyze_nav_trends history 30 = [] →
      get_monthly_investment_strategy history base = MonthlyOutcome.emptyDict)
    ∧ ((analyze_nav_trends history 30).length = 1 →
      get_monthly_investment_strategy history base = MonthlyOutcome.indexError)
    ∧ (2 ≤ (analyze_nav_trends history 30).length →
      ∃ s, get_monthly_investment_strategy history base = MonthlyOutcome.ok s) := by
  refine ⟨?_, ?_, ?_⟩
  · intro h
    unfold get_monthly_investment_strategy
    rw [if_pos h]
  · intro h
    rcases hdf : analyze_nav_trends history 30 with _ | ⟨a, t⟩
    · rw [hdf] at h; simp at h
    · rw [hdf] at h
      simp only [List.length_cons, Nat.add_left_eq_self] at h
      have ht : t = [] := List.length_eq_zero.mp h
      subst ht
      have h1 : ilocZ [a] (-1) = some a := by
        unfold ilocZ
        norm_num
      have h2 : ilocZ [a] (-2) = none := by
        unfold ilocZ
        norm_num
      unfold get_monthly_investment_strategy
      rw [hdf]
      simp [h1, h2]
  · intro h
    rcases hdf : analyze_nav_trends history 30 with _ | ⟨a, t⟩
    · rw [hdf] at h; simp at h
    · rw [hdf] at h
      have hlen : (a :: t).length = t.length + 1 := by simp
      have hpos : 1 ≤ t.length := by omega
      have h1 : ilocZ (a :: t) (-1) = (a :: t).get? t.length := by
        unfold ilocZ
        rw [if_neg (by norm_num)]
        have he : ((a :: t).length : Int) + (-1) = (t.length : Int) := by
          rw [hlen]; push_cast; ring
        rw [he, if_pos (by positivity), Int.toNat_natCast]
      have h2 : ilocZ (a :: t) (-2) = (a :: t).get? (t.length - 1) := by
        unfold ilocZ
        rw [if_neg (by norm_num)]
        have he : ((a :: t).length : Int) + (-2) = ((t.length - 1 : Nat) : Int) := by
          rw [hlen]
          omega
        rw [he, if_pos (by positivity), Int.toNat_natCast]
      obtain ⟨x1, hx1⟩ : ∃ x, (a :: t).get? t.length = some x := by
        have hb : t.length < (a :: t).length := by simp
        exact ⟨_, List.get?_eq_get hb⟩
      obtain ⟨x2, hx2⟩ : ∃ x, (a :: t).get? (t.length - 1) = some x := by
        have hb : t.length - 1 < (a :: t).length := by simp; omega
        exact ⟨_, List.get?_eq_get hb⟩
      unfold get_monthly_investment_strategy
      rw [hdf]
      simp only [h1, hx1, h2, hx2]
      exact ⟨_, by rw [if_neg (by simp)]⟩

/-- C2: the simulator emits the ledger keyed one-to-one by the distinct
calendar months present in the frame, in month order (months with no
observed point are skipped, never zero-filled), and every ledger entry
carries the date and NAV of an observed point that is earliest-dated
within its month. -/
theorem c2_monthly_grouping (df : List EPoint) (base : ℚ) (strat : Strategy)
    (hne : df ≠ []) :
    ((simCore df base strat).investments.map fun c => monthKey c.date) = sortedMonths df
    ∧ (sortedMonths df).Nodup
    ∧ (∀ k, k ∈ sortedMonths df ↔ ∃ p ∈ df, monthKey p.date = k)
    ∧ ∀ c ∈ (simCore df base strat).investments,
        ∃ p ∈ df, p.date = c.date ∧ p.nav = c.nav
          ∧ ∀ q ∈ df, monthKey q.date = monthKey p.date →
              daysFromCivil p.date ≤ daysFromCivil q.date := by
  refine ⟨?_, ?_, fun k => mem_sortedMonths_iff df k, ?_⟩
  · show ((sipLoop base strat 0 0 (investRows df)).2.2.map fun c => monthKey c.date)
      = sortedMonths df
    rw [sipLoop_map_keys base strat (investRows df) 0 0, investRows_map_keys]
  · unfold sortedMonths
    exact (List.perm_insertionSort keyLe _).nodup_iff.mpr (List.nodup_dedup _)
  · intro c hc
    obtain ⟨p, hp, ti2, tu2, he⟩ := mem_sipLoop base strat (investRows df) 0 0 c hc
    obtain ⟨hpdf, hmin⟩ := mem_investRows df p hp
    refine ⟨p, hpdf, ?_, ?_, hmin⟩
    · rw [he]
      rfl
    · rw [he]
      rfl

/-- C2 witness: on the three-month scenario frame the ledger's month keys
are exactly the three distinct months in order, and the first entry's
point is the earliest-dated January observation. -/
theorem c2_monthly_grouping_witness :
    scenarioFrame ≠ []
    ∧ ((simCore scenarioFrame 1000 .regular).investments.map fun c => monthKey c.date)
        = sortedMonths scenarioFrame
    ∧ sortedMonths scenarioFrame = [(2020, 1), (2020, 2), (2020, 3)] :=
  ⟨by decide,
   (c2_monthly_grouping scenarioFrame 1000 .regular (by decide)).1,
   by decide⟩

/-- C3: under the enhanced strategy every ledger entry with a defined
percent change invests base times the ladder multiplier evaluated at the
entry's NAV, the reconstructed previous NAV nav / (1 + change/100), and
the change itself; an undefined change (the first point) invests base
times 1; under the regular strategy every entry invests exactly the base
amount. -/
theorem c3_contribution_amounts (df : List EPoint) (base : ℚ) :
    (∀ c ∈ (simCore df base .enhanced).investments,
      c.amount = base * (c.nav_change.elim 1 fun ch =>
        calculate_enhanced_multiplier c.nav (c.nav / (1 + ch/100)) ch))
    ∧ (∀ c ∈ (simCore df base .regular).investments, c.amount = base) := by
  constructor
  · intro c hc
    obtain ⟨p, _, ti2, tu2, he⟩ := mem_sipLoop base .enhanced (investRows df) 0 0 c hc
    rw [he]
    show amountOf base .enhanced p
      = base * (p.navChange.elim 1 fun ch =>
          calculate_enhanced_multiplier p.nav (p.nav / (1 + ch/100)) ch)
    unfold amountOf
    cases hnc : p.navChange with
    | none => simp
    | some ch => simp
  · intro c hc
    obtain ⟨p, _, ti2, tu2, he⟩ := mem_sipLoop base .regular (investRows df) 0 0 c hc
    rw [he]
    rfl

/-- C3 witness: on the scenario series with base 1000, the first entry
(undefined change) invests base times 1, and the full enhanced amount
sequence is 1000, 2000, 850, matching the spec scenario. -/
theorem c3_contribution_amounts_witness :
    scenarioFirstEntry ∈ (simCore scenarioFrame 1000 .enhanced).investments
    ∧ scenarioFirstEntry.amount
        = 1000 * (scenarioFirstEntry.nav_change.elim 1 fun ch =>
            calculate_enhanced_multiplier scenarioFirstEntry.nav
              (scenarioFirstEntry.nav / (1 + ch/100)) ch)
    ∧ ((simCore scenarioFrame 1000 .enhanced).investments.map fun c => c.amount)
        = [1000, 2000, 850] :=
  ⟨by decide,
   (c3_contribution_amounts scenarioFrame 1000).1 scenarioFirstEntry (by decide),
   by decide⟩

/-- C9: the strategy comparator returns the failure value (no partial or
degraded comparison) exactly when the prepared series is empty, and on a
nonempty series it returns both simulations with outperformance deltas
taken as enhanced minus regular of the reported absolute returns and
return percentages. -/
theorem c9_compare_strategies (history : List RawRecord) (base : ℚ) (days : Nat) :
    (get_historical_data history days = [] →
      compare_strategies history base days = none)
    ∧ (get_historical_data history days ≠ [] →
        ∃ r, compare_strategies history base days = some r
          ∧ r.regular = simCore (get_historical_data history days) base .regular
          ∧ r.enhanced = simCore (get_historical_data history days) base .enhanced
          ∧ r.outperformance = r.enhanced.absolute_return - r.regular.absolute_return
          ∧ r.outperformance_pct
              = r.enhanced.return_percent - r.regular.return_percent) := by
  constructor
  · intro h
    show (if get_historical_data history days = [] then none else _)
      = (none : Option ComparisonResult)
    rw [if_pos h]
  · intro h
    refine ⟨{ regular := simCore (get_historical_data history days) base .regular
            , enhanced := simCore (get_historical_data history days) base .enhanced
            , regular_rolling := calculate_rolling_returns
                (simCore (get_historical_data history days) base .regular).investments
                (get_historical_data history days) 12
            , enhanced_rolling := calculate_rolling_returns
                (simCore (get_historical_data history days) base .enhanced).investments
                (get_historical_data history days) 12
            , outperformance :=
                (simCore (get_historical_data history days) base .enhanced).absolute_return
                  - (simCore (get_historical_data history days) base .regular).absolute_return
            , outperformance_pct :=
                (simCore (get_historical_data history days) base .enhanced).return_percent
                  - (simCore (get_historical_data history days) base .regular).return_percent },
      ?_, rfl, rfl, rfl, rfl⟩
    show (if get_historical_data history days = [] then none else some _) = some _
    rw [if_neg h]

/-- C9 witness: an empty feed yields the failure value; the scenario feed
yields a comparison whose outperformance is the difference of the two
reported absolute returns. -/
theorem c9_compare_strategies_witness :
    compare_strategies [] 10000 1000 = none
    ∧ ∃ r, compare_strategies scenarioSeries 1000 1000 = some r
        ∧ r.regular = simCore (get_historical_data scenarioSeries 1000) 1000 .regular
        ∧ r.enhanced = simCore (get_historical_data scenarioSeries 1000) 1000 .enhanced
        ∧ r.outperformance = r.enhanced.absolute_return - r.regular.absolute_return
        ∧ r.outperformance_pct = r.enhanced.return_percent - r.regular.return_percent :=
  ⟨(c9_compare_strategies [] 10000 1000).1 (by decide),
   (c9_compare_strategies scenarioSeries 1000 1000).2 (by decide)⟩

/-- C5 (amended): the reported totalUnits equals the exact sum of the
ledger's unitsPurchased rounded to three decimals (and totalInvested the
exact amount sum rounded to two), while the last ledger entry's cumulative
fields carry the exact unrounded sums - the report fields and the exact
accumulators agree only up to that rounding. -/
theorem c5_accumulation_amended (df : List EPoint) (base : ℚ) (strat : Strategy) :
    (simCore df base strat).total_units
      = round3 (((simCore df base strat).investments.map fun c => c.units).sum)
    ∧ (simCore df base strat).total_invested
      = round2 (((simCore df base strat).investments.map fun c => c.amount).sum)
    ∧ ∀ c, (simCore df base strat).investments.getLast? = some c →
        c.total_units = ((simCore df base strat).investments.map fun c2 => c2.units).sum
        ∧ c.total_invested
            = ((simCore df base strat).investments.map fun c2 => c2.amount).sum := by
  obtain ⟨h1, h2, h3⟩ := sipLoop_spec base strat (investRows df) 0 0
  refine ⟨?_, ?_, ?_⟩
  · show round3 ((sipLoop base strat 0 0 (investRows df)).2.1)
      = round3 (((sipLoop base strat 0 0 (investRows df)).2.2.map fun c => c.units).sum)
    rw [h2, zero_add]
  · show round2 ((sipLoop base strat 0 0 (investRows df)).1)
      = round2 (((sipLoop base strat 0 0 (investRows df)).2.2.map fun c => c.amount).sum)
    rw [h1, zero_add]
  · intro c hc
    obtain ⟨hti, htu⟩ := h3 c hc
    constructor
    · show c.total_units
        = ((sipLoop base strat 0 0 (investRows df)).2.2.map fun c2 => c2.units).sum
      rw [htu, h2, zero_add]
    · show c.total_invested
        = ((sipLoop base strat 0 0 (investRows df)).2.2.map fun c2 => c2.amount).sum
      rw [hti, h1, zero_add]

/-- C5 witness: on the single-record feed with NAV 3, the last (only)
ledger entry's cumulative units equal the exact units sum 1000/3. -/
theorem c5_accumulation_witness :
    (simCore (get_historical_data thirdFeed 1000) 1000 .regular).investments.getLast?
      = some thirdFeedEntry
    ∧ thirdFeedEntry.total_units
        = ((simCore (get_historical_data thirdFeed 1000) 1000 .regular).investments.map
            fun c2 => c2.units).sum :=
  ⟨by decide,
   ((c5_accumulation_amended (get_historical_data thirdFeed 1000) 1000 .regular).2.2
      thirdFeedEntry (by decide)).1⟩

/-- C5 counterexample: on the single-record feed with NAV 3 and base 1000
the reported totalUnits is the rounded 333.333, not the exact units sum
1000/3, so totalUnits does not equal the sum of unitsPurchased exactly. -/
theorem c5_rounding_counterexample :
    (simCore (get_historical_data thirdFeed 1000) 1000 .regular).total_units = 333333/1000
    ∧ ((simCore (get_historical_data thirdFeed 1000) 1000 .regular).investments.map
        fun c => c.units).sum = 1000/3
    ∧ (simCore (get_historical_data thirdFeed 1000) 1000 .regular).total_units
        ≠ ((simCore (get_historical_data thirdFeed 1000) 1000 .regular).investments.map
            fun c => c.units).sum := by
  refine ⟨by decide, by decide, by decide⟩

/-- C6: the rolling-return calculator produces exactly one point per index
i with window <= i < n (here i = window + j); its invested and units are
summed over contributions[i-window, i), its current price and date come
from contributions[i-1], value = units * currentPrice, and the window
return is (value - invested)/invested * 100 with fallback 0 when invested
is 0.  In particular window 12 over 15 contributions yields 15 - 12 = 3
points. -/
theorem c6_rolling_returns (inv : List Contribution) (df : List EPoint) (w : Nat)
    (hw : 1 ≤ w) (hpos : ∀ c ∈ inv, 0 ≤ c.amount) :
    (calculate_rolling_returns inv df w).length = inv.length - w
    ∧ ∀ j, ∀ hj : j < (calculate_rolling_returns inv df w).length,
        ((calculate_rolling_returns inv df w).get ⟨j, hj⟩).invested
          = (((inv.drop j).take w).map fun c => c.amount).sum
        ∧ ((calculate_rolling_returns inv df w).get ⟨j, hj⟩).value
          = ((((inv.drop j).take w).map fun c => c.units).sum)
              * (inv.getD (w + j - 1) defaultContribution).nav
        ∧ ((calculate_rolling_returns inv df w).get ⟨j, hj⟩).date
          = (inv.getD (w + j - 1) defaultContribution).date
        ∧ ((calculate_rolling_returns inv df w).get ⟨j, hj⟩).return_percent
          = (if (((inv.drop j).take w).map fun c => c.amount).sum = 0 then 0
             else (((calculate_rolling_returns inv df w).get ⟨j, hj⟩).value
                    - (((inv.drop j).take w).map fun c => c.amount).sum)
                  / ((((inv.drop j).take w).map fun c => c.amount).sum) * 100) := by
  have hlen : (calculate_rolling_returns inv df w).length = inv.length - w := by
    unfold calculate_rolling_returns
    rw [List.length_map, List.length_range']
  refine ⟨hlen, ?_⟩
  intro j hj
  have hj2 : j < inv.length - w := hlen ▸ hj
  have hwj : w + j - 1 < inv.length := by omega
  have hrow : (calculate_rolling_returns inv df w).get ⟨j, hj⟩
      = rollingRow inv w (w + j) := by
    unfold calculate_rolling_returns
    rw [List.get_eq_getElem, List.getElem_map, List.getElem_range'_1]
  have hanchor : ilocZ inv (((w + j : Nat) : Int) - 1) = inv.get? (w + j - 1) := by
    unfold ilocZ
    have he : ((w + j : Nat) : Int) - 1 = ((w + j - 1 : Nat) : Int) := by omega
    rw [if_pos (by omega), he, Int.toNat_natCast]
  have hgetD : (ilocZ inv (((w + j : Nat) : Int) - 1)).getD defaultContribution
      = inv.getD (w + j - 1) defaultContribution := by
    rw [hanchor, List.getD_eq_get?]
  have hslice : (inv.drop ((w + j) - w)).take ((w + j) - ((w + j) - w))
      = (inv.drop j).take w := by
    rw [Nat.add_sub_cancel_left, Nat.add_sub_cancel]
  rw [hrow]
  unfold rollingRow
  simp only [hslice, hgetD]
  refine ⟨trivial, trivial, trivial, ?_⟩
  have hS : 0 ≤ (((inv.drop j).take w).map fun c => c.amount).sum := by
    apply List.sum_nonneg
    intro x hx
    obtain ⟨c, hc, rfl⟩ := List.mem_map.mp hx
    exact hpos c (List.drop_subset j inv (List.take_subset w _ hc))
  rcases eq_or_lt_of_le hS with hz | hlt
  · rw [if_neg (by rw [← hz]; exact lt_irrefl 0), if_pos hz.symm]
  · rw [if_pos hlt, if_neg (ne_of_gt hlt)]

/-- C6 witness: a 12-month window over a fifteen-entry ledger of
nonnegative contributions yields exactly three rolling points. -/
theorem c6_rolling_returns_witness :
    (1 ≤ 12)
    ∧ (∀ c ∈ ledger15, 0 ≤ c.amount)
    ∧ (calculate_rolling_returns ledger15 [] 12).length = 3 :=
  ⟨by decide, by decide, by
    have h := (c6_rolling_returns ledger15 [] 12 (by decide) (by decide)).1
    simpa using h⟩

/-- C10 witness: a single-record feed analyses to a one-row frame and the
strategy call raises the out-of-bounds access. -/
theorem c10_monthly_strategy_arity_witness :
    (analyze_nav_trends oneFeed 30).length = 1
    ∧ get_monthly_investment_strategy oneFeed 10000 = MonthlyOutcome.indexError :=
  ⟨by decide, (c10_monthly_strategy_arity oneFeed 10000).2.1 (by decide)⟩
